import Mathlib

/-!
Verification of the peer connection lifecycle manager of SKII-chat
(`src/service/peer.js`, class `PeerService`).

The JavaScript class is shallowly embedded: the mutable fields of the
singleton become a `PeerState` record, each method becomes a function from
`PeerState` to `PeerState` together with the list of events it emits
(`this.emit(...)`), the list of timers it registers (`setTimeout`), and a
count of connection-initialization attempts it performs.  Asynchronous
methods that contain an `await` of a genuinely asynchronous operation are
split at that suspension point into a start function and a resume function,
so that states observable by other callbacks while the method is suspended
are ordinary values of the model.  Fallible external operations
(`RTCPeerConnection` construction, `peer.setRemoteDescription`,
`peer.addIceCandidate`, the TURN credential fetch) are parameterized by
Boolean oracles telling whether they succeed.
-/

namespace SkiiChat

/-- Signaling states of the underlying `RTCPeerConnection` that the code
inspects (`peer.signalingState`). -/
inductive SigState
  | stable
  | haveLocalOffer
  | haveRemoteOffer
  | closedSig
deriving DecidableEq, Repr

/-- Values stored in `this.lastUsedConfig` by `handleConnectionFailure`
and the backoff timer body (the strings `'stun'` and `'turn'`). -/
inductive IceConf
  | stun
  | turn
deriving DecidableEq, Repr

/-- The `type` field of the error payloads passed to `this.emit("error", ...)`. -/
inductive ErrType
  | iceCandidate
  | offer
  | answer
  | remoteDescription
  | turn
  | addTracks
  | reconnect
deriving DecidableEq, Repr

/-- Events emitted through the `EventEmitter` interface of `PeerService`. -/
inductive Ev
  | errorEv (t : ErrType)
  | reconnectCall
  | iceConnected
  | remoteStream (sid : Nat)
  | mediaSourceSwitched
deriving DecidableEq, Repr

/-- Kinds of inbound media tracks (`event.track.kind`). -/
inductive TrackKind
  | audio
  | video
deriving DecidableEq, Repr

/-- The per-stream tracking record created by `handleIncomingTrack`
(the entries of `this._streamTracking`).  `pendingFire` models the live
debounce timer (`timeoutId`) by its absolute fire time. -/
structure TrackGroup where
  hasAudio : Bool
  hasVideo : Bool
  emitted : Bool
  pendingFire : Option Nat
deriving DecidableEq, Repr

/-- The underlying `RTCPeerConnection`, abstracted to the parts the class
reads or writes: whether a remote description with a type is present,
the signaling state, the candidates successfully passed to
`peer.addIceCandidate`, whether the event handlers installed by
`setupPeerEvents` are attached, and whether `close()` was called. -/
structure PeerConn where
  remoteDescSet : Bool
  signalingState : SigState
  appliedCandidates : List Nat
  handlersAttached : Bool
  closedConn : Bool
deriving DecidableEq, Repr

/-- A fresh connection as produced by `createPeerConnection` followed by
`setupPeerEvents`. -/
def freshConn : PeerConn :=
  { remoteDescSet := false
    signalingState := SigState.stable
    appliedCandidates := []
    handlersAttached := true
    closedConn := false }

/-- The mutable instance fields of the `PeerService` singleton.
`iceTimeoutPending` records whether the timer stored in `this.iceTimeout`
(armed by the `"checking"` branch of `oniceconnectionstatechange`) is
still live. -/
structure PeerState where
  peer : Option PeerConn
  roomId : Option String
  reconnectAttempts : Nat
  maxReconnectAttempts : Nat
  isReconnecting : Bool
  isSettingRemoteDescription : Bool
  senders : List TrackKind
  pendingCandidates : List Nat
  streamTracking : List (Nat × TrackGroup)
  remotePeerId : Option String
  lastUsedConfig : Option IceConf
  iceTimeoutPending : Bool
deriving DecidableEq, Repr

/-- The field values installed by the constructor of `PeerService`
(`lastUsedConfig` and `iceTimeout` are absent until first assigned,
modelled as `none` / `false`). -/
def initialState : PeerState :=
  { peer := none
    roomId := none
    reconnectAttempts := 0
    maxReconnectAttempts := 5
    isReconnecting := false
    isSettingRemoteDescription := false
    senders := []
    pendingCandidates := []
    streamTracking := []
    remotePeerId := none
    lastUsedConfig := none
    iceTimeoutPending := false }

/-- `cleanup()` (peer.js lines 588-615): clear every track-aggregation
debounce timer and the tracking map; if a connection exists, detach its
handlers, null `remotePeerId`, close and drop it; clear the sender map and
the pending-candidate queue; null `roomId`; reset `isReconnecting`,
`isSettingRemoteDescription` and `reconnectAttempts`.  The stored
`iceTimeout` handle is not touched. -/
def cleanup (s : PeerState) : PeerState :=
  { s with
    streamTracking := []
    peer := none
    remotePeerId := if s.peer.isSome then none else s.remotePeerId
    senders := []
    pendingCandidates := []
    roomId := none
    isReconnecting := false
    isSettingRemoteDescription := false
    reconnectAttempts := 0 }

/-- The observable actions `cleanup()` performs on external resources, in
program order: one `clearTimeout` per live debounce timer, then (when a
connection exists) detaching its handlers followed by closing it. -/
inductive CleanupAct
  | clearDebounce (sid : Nat)
  | detachHandlers
  | closePeer
deriving DecidableEq, Repr

/-- The `clearTimeout` calls of the loop at the top of `cleanup()`. -/
def debounceClears (s : PeerState) : List CleanupAct :=
  s.streamTracking.filterMap fun p =>
    if p.2.pendingFire.isSome then some (CleanupAct.clearDebounce p.1) else none

/-- The action trace of `cleanup()`. -/
def cleanupTrace (s : PeerState) : List CleanupAct :=
  debounceClears s ++
    (if s.peer.isSome then [CleanupAct.detachHandlers, CleanupAct.closePeer] else [])

/-- Timers registered by `handleConnectionFailure`: the backoff timer
(line 528, with its computed delay) and the 1000 ms retry timer registered
when a backoff attempt fails (line 547). -/
inductive TimerK
  | backoff (delay : Nat)
  | retryFailure (delay : Nat)
deriving DecidableEq, Repr

/-- Result of running a (piece of a) method: the post-state, emitted
events, registered timers, and the number of connection-initialization
attempts (`initializeWithTurn` / `initializeWithStun` invocations)
performed. -/
structure HcfOut where
  st : PeerState
  evs : List Ev
  timers : List TimerK
  inits : Nat
deriving DecidableEq, Repr

/-- The part of `handleConnectionFailure` after the immediate-fallback
block (peer.js lines 513-550): if the attempt counter has reached
`maxReconnectAttempts`, emit the terminal reconnect error and stop;
otherwise set `isReconnecting`, increment the counter, and register the
backoff timer with delay `min(1000 * 2^(attempts-1), 10000)`. -/
def backoffSection (s : PeerState) : HcfOut :=
  if s.maxReconnectAttempts ≤ s.reconnectAttempts then
    ⟨s, [Ev.errorEv ErrType.reconnect], [], 0⟩
  else
    let s1 := { s with isReconnecting := true, reconnectAttempts := s.reconnectAttempts + 1 }
    let delay := min (1000 * 2 ^ (s1.reconnectAttempts - 1)) 10000
    ⟨s1, [], [TimerK.backoff delay], 0⟩

/-- Result of the synchronous prefix of `handleConnectionFailure`: either
the call returned before any suspension (`done`), or it is suspended inside
the immediate-fallback block at `await this.initializeWithTurn()`
(`awaitingInit`), carrying the state visible to other callbacks at that
point and the saved `currentRemotePeer` / `currentRoom` locals. -/
inductive HcfStartResult
  | done (out : HcfOut)
  | awaitingInit (s : PeerState) (savedPeer savedRoom : Option String)
deriving DecidableEq, Repr

/-- The synchronous prefix of `handleConnectionFailure` (peer.js lines
482-527): return at once if `isReconnecting`; if `reconnectAttempts === 0`
and `lastUsedConfig !== 'turn'`, enter the immediate TURN fallback: set the
flag, increment the counter, save the session identifiers, run `cleanup()`
and suspend at the TURN initialization; otherwise fall through to the
backoff section. -/
def hcfStart (s : PeerState) : HcfStartResult :=
  if s.isReconnecting then
    HcfStartResult.done ⟨s, [], [], 0⟩
  else if s.reconnectAttempts = 0 ∧ s.lastUsedConfig ≠ some IceConf.turn then
    let savedPeer := s.remotePeerId
    let savedRoom := s.roomId
    let s1 := cleanup { s with
      isReconnecting := true
      reconnectAttempts := s.reconnectAttempts + 1 }
    HcfStartResult.awaitingInit s1 savedPeer savedRoom
  else
    HcfStartResult.done (backoffSection s)

/-- Resumption of the immediate-fallback block once
`await this.initializeWithTurn()` settles (peer.js lines 496-512).  On
success: the new connection is installed, `lastUsedConfig := 'turn'`, the
saved identifiers are restored, `reconnectCall` is emitted when both are
known, and the flag is dropped.  On failure: `initializeWithTurn` has
already emitted the `turn` error from its own catch block; the flag is
dropped and control falls through to the backoff section. -/
def hcfFallbackResume (s : PeerState) (savedPeer savedRoom : Option String)
    (initOk : Bool) : HcfOut :=
  if initOk then
    let s1 := { s with
      peer := some freshConn
      lastUsedConfig := some IceConf.turn
      remotePeerId := savedPeer
      roomId := savedRoom }
    let evs := if s1.remotePeerId.isSome ∧ s1.roomId.isSome then [Ev.reconnectCall] else []
    ⟨{ s1 with isReconnecting := false }, evs, [], 1⟩
  else
    let out := backoffSection { s with isReconnecting := false }
    ⟨out.st, Ev.errorEv ErrType.turn :: out.evs, out.timers, 1 + out.inits⟩

/-- A complete run of `handleConnectionFailure` with the outcome of the
TURN initialization given by `initOk` (only consulted when the
immediate-fallback block is entered). -/
def runHcf (s : PeerState) (initOk : Bool) : HcfOut :=
  match hcfStart s with
  | HcfStartResult.done out => out
  | HcfStartResult.awaitingInit s1 sp sr => hcfFallbackResume s1 sp sr initOk

/-- The synchronous prefix of the backoff timer body (peer.js lines
528-531): run `cleanup()`, then read the parity of the (just reset)
attempt counter to pick the configuration, suspending at the chosen
initialization call.  Returns the suspended state and whether the even
branch (TURN) was taken. -/
def backoffFireStart (s : PeerState) : PeerState × Bool :=
  let s1 := cleanup s
  (s1, s1.reconnectAttempts % 2 = 0)

/-- Resumption of the backoff timer body (peer.js lines 531-548).  On
success the chosen configuration is recorded, `reconnectCall` is emitted if
the session identifiers are still known, and the flag is dropped.  On
failure (a TURN attempt has already emitted the `turn` error from
`initializeWithTurn`; a STUN attempt emits nothing) the flag is dropped and
a 1000 ms retry of `handleConnectionFailure` is registered. -/
def backoffFireResume (s : PeerState) (parityEven : Bool) (initOk : Bool) : HcfOut :=
  if initOk then
    let s1 := { s with
      peer := some freshConn
      lastUsedConfig := some (if parityEven then IceConf.turn else IceConf.stun) }
    let evs := if s1.remotePeerId.isSome ∧ s1.roomId.isSome then [Ev.reconnectCall] else []
    ⟨{ s1 with isReconnecting := false }, evs, [], 1⟩
  else
    ⟨{ s with isReconnecting := false },
      if parityEven then [Ev.errorEv ErrType.turn] else [],
      [TimerK.retryFailure 1000], 1⟩

/-- A complete firing of the backoff timer with initialization outcome
`initOk`. -/
def fireBackoff (s : PeerState) (initOk : Bool) : HcfOut :=
  let p := backoffFireStart s
  backoffFireResume p.1 p.2 initOk

/-- Result of candidate processing: post-state, emitted events, and the
candidates handed to `peer.addIceCandidate` (in call order). -/
structure ProcOut where
  st : PeerState
  evs : List Ev
  attempted : List Nat
deriving DecidableEq, Repr

/-- `addIceCandidate(candidate)` (peer.js lines 42-59) with the outcome of
`peer.addIceCandidate` given by `ok`: when the connection has a remote
description with a type, hand the candidate to the connection (a rejection
emits the non-fatal `ice-candidate` error); otherwise buffer it in
`pendingCandidates`. -/
def addIceCandidateFn (s : PeerState) (c : Nat) (ok : Bool) : ProcOut :=
  match s.peer with
  | some conn =>
    if conn.remoteDescSet then
      if ok then
        ⟨{ s with peer := some { conn with
            appliedCandidates := conn.appliedCandidates ++ [c] } }, [], [c]⟩
      else
        ⟨s, [Ev.errorEv ErrType.iceCandidate], [c]⟩
    else
      ⟨{ s with pendingCandidates := s.pendingCandidates ++ [c] }, [], []⟩
  | none =>
    ⟨{ s with pendingCandidates := s.pendingCandidates ++ [c] }, [], []⟩

/-- The `while` loop of `processPendingCandidates` (peer.js lines
161-164), fueled: shift the head of the queue and run `addIceCandidate` on
it.  (When no remote description is set, `addIceCandidate` re-buffers the
candidate and the JavaScript loop would not terminate; the fuel makes the
model total.) -/
def processLoop : Nat → PeerState → (Nat → Bool) → ProcOut
  | 0, s, _ => ⟨s, [], []⟩
  | n + 1, s, ok =>
    match s.pendingCandidates with
    | [] => ⟨s, [], []⟩
    | c :: rest =>
      let s1 := { s with pendingCandidates := rest }
      let r1 := addIceCandidateFn s1 c (ok c)
      let r2 := processLoop n r1.st ok
      ⟨r2.st, r1.evs ++ r2.evs, r1.attempted ++ r2.attempted⟩

/-- `processPendingCandidates()` (peer.js lines 154-165): return at once
when the queue is empty, otherwise drain it through `addIceCandidate`. -/
def processPendingCandidatesFn (s : PeerState) (ok : Nat → Bool) : ProcOut :=
  if s.pendingCandidates.isEmpty then ⟨s, [], []⟩
  else processLoop s.pendingCandidates.length s ok

/-- Result of `setRemoteDescription`: post-state, emitted events,
registered timers, and the number of calls made to the underlying
`peer.setRemoteDescription`. -/
structure SrdOut where
  st : PeerState
  evs : List Ev
  timers : List TimerK
  sets : Nat
deriving DecidableEq, Repr

/-- `setRemoteDescription(answer)` (peer.js lines 115-152) run to
completion.  `applyOk` is the outcome of the underlying
`peer.setRemoteDescription`, `candOk` the per-candidate outcome of the
`peer.addIceCandidate` calls of the pending-candidate replay, `initOk` the
outcome of a TURN initialization inside a triggered
`handleConnectionFailure`.  Guards in source order: no connection → bare
return; `isSettingRemoteDescription` → bare return; otherwise set the
flag, and only when `signalingState` is `stable` or `have-local-offer`
call the underlying set (success replays pending candidates; failure or an
illegal state emits the `remote-description` error and awaits
`handleConnectionFailure`); the `finally` clears the flag. -/
def srdRun (s : PeerState) (applyOk : Bool) (candOk : Nat → Bool) (initOk : Bool) : SrdOut :=
  match s.peer with
  | none => ⟨s, [], [], 0⟩
  | some conn =>
    if s.isSettingRemoteDescription then ⟨s, [], [], 0⟩
    else
      let s1 := { s with isSettingRemoteDescription := true }
      if conn.signalingState = SigState.stable ∨ conn.signalingState = SigState.haveLocalOffer then
        if applyOk then
          let conn1 := { conn with remoteDescSet := true, signalingState := SigState.stable }
          let s2 := { s1 with peer := some conn1 }
          let pr := processPendingCandidatesFn s2 candOk
          ⟨{ pr.st with isSettingRemoteDescription := false }, pr.evs, [], 1⟩
        else
          let hr := runHcf s1 initOk
          ⟨{ hr.st with isSettingRemoteDescription := false },
            Ev.errorEv ErrType.remoteDescription :: hr.evs, hr.timers, 1⟩
      else
        let hr := runHcf s1 initOk
        ⟨{ hr.st with isSettingRemoteDescription := false },
          Ev.errorEv ErrType.remoteDescription :: hr.evs, hr.timers, 0⟩

/-- The state visible to other callbacks while a `setRemoteDescription`
call is suspended at one of its `await`s: the flag is set. -/
def srdMidState (s : PeerState) : PeerState :=
  { s with isSettingRemoteDescription := true }

/-! ## Track aggregation (`handleIncomingTrack`, peer.js lines 387-434) -/

/-- A tracking record as first created for a stream id (line 402). -/
def freshGroup : TrackGroup :=
  { hasAudio := false, hasVideo := false, emitted := false, pendingFire := none }

/-- The body of `handleIncomingTrack` for the stream's tracking record, at
arrival time `t`: record the kind, clear any pending debounce timer, and
arm a new one for `t + 1000`. -/
def trackArrive (g : TrackGroup) (k : TrackKind) (t : Nat) : TrackGroup :=
  { g with
    hasAudio := g.hasAudio || (k == TrackKind.audio)
    hasVideo := g.hasVideo || (k == TrackKind.video)
    pendingFire := some (t + 1000) }

/-- The debounce timer callback (peer.js lines 425-433): if the group has
not yet emitted, mark it emitted and emit `remoteStream`.  Returns the
updated group and whether the event was emitted. -/
def debounceFireGroup (g : TrackGroup) : TrackGroup × Bool :=
  if g.emitted then ({ g with pendingFire := none }, false)
  else ({ g with pendingFire := none, emitted := true }, true)

/-- Fire the group's pending debounce timer when it is due at or before
time `t` (the next observable instant). -/
def fireIfDue (g : TrackGroup) (t : Nat) : TrackGroup × List Nat :=
  match g.pendingFire with
  | some f =>
    if f ≤ t then
      let r := debounceFireGroup g
      (r.1, if r.2 then [f] else [])
    else (g, [])
  | none => (g, [])

/-- After the last arrival, the remaining armed timer fires. -/
def drainGroup (g : TrackGroup) : List Nat :=
  match g.pendingFire with
  | some f => if g.emitted then [] else [f]
  | none => []

/-- The timed evolution of one stream's tracking record under a sequence
of track arrivals `(time, kind)` with nondecreasing times: before each
arrival any due timer fires, then `handleIncomingTrack` processes the
track; after the last arrival the pending timer fires.  Returns the times
at which `remoteStream` is emitted for this stream.  (The code keys
`_streamTracking` by stream id and never lets streams interact, so each
stream id evolves exactly by this function.) -/
def runTrackEvents (g : TrackGroup) : List (Nat × TrackKind) → List Nat
  | [] => drainGroup g
  | (t, k) :: rest =>
    let fg := fireIfDue g t
    fg.2 ++ runTrackEvents (trackArrive fg.1 k t) rest

/-- Lookup in the `_streamTracking` map. -/
def findGroup (sid : Nat) : List (Nat × TrackGroup) → Option TrackGroup
  | [] => none
  | (a, g) :: rest => if a = sid then some g else findGroup sid rest

/-- `_streamTracking.set(streamId, ...)`. -/
def upsertGroup (sid : Nat) (g : TrackGroup) : List (Nat × TrackGroup) → List (Nat × TrackGroup)
  | [] => [(sid, g)]
  | (a, b) :: rest =>
    if a = sid then (sid, g) :: rest else (a, b) :: upsertGroup sid g rest

/-- `handleIncomingTrack` acting on the service state: look up or create
the stream's tracking record and update it. -/
def handleIncomingTrackFn (s : PeerState) (sid : Nat) (k : TrackKind) (t : Nat) : PeerState :=
  let g := (findGroup sid s.streamTracking).getD freshGroup
  { s with streamTracking := upsertGroup sid (trackArrive g k t) s.streamTracking }

/-- A debounce timer firing for stream `sid`, acting on the service
state. -/
def debounceFireMap (s : PeerState) (sid : Nat) : PeerState × List Ev :=
  match findGroup sid s.streamTracking with
  | none => (s, [])
  | some g =>
    let r := debounceFireGroup g
    ({ s with streamTracking := upsertGroup sid r.1 s.streamTracking },
      if r.2 then [Ev.remoteStream sid] else [])

/-! ## The continuously-failing reconnection run -/

/-- Accumulated observation of a run in which every connection
initialization fails: current state, queue of registered timers (FIFO; in
this run at most one timer is ever pending), all emitted events, the total
number of initialization attempts, and the delays of the timers that have
fired. -/
structure RunAcc where
  st : PeerState
  queue : List TimerK
  evs : List Ev
  inits : Nat
  firedDelays : List Nat
deriving DecidableEq, Repr

/-- Fire the next pending timer, with every initialization failing. -/
def stepAllFail (a : RunAcc) : RunAcc :=
  match a.queue with
  | [] => a
  | TimerK.backoff d :: rest =>
    let out := fireBackoff a.st false
    ⟨out.st, rest ++ out.timers, a.evs ++ out.evs, a.inits + out.inits, a.firedDelays ++ [d]⟩
  | TimerK.retryFailure d :: rest =>
    let out := runHcf a.st false
    ⟨out.st, rest ++ out.timers, a.evs ++ out.evs, a.inits + out.inits, a.firedDelays ++ [d]⟩

/-- The initial connectivity failure delivered to `handleConnectionFailure`
with the TURN initialization failing. -/
def allFailInit (s : PeerState) : RunAcc :=
  let out := runHcf s false
  ⟨out.st, out.timers, out.evs, out.inits, []⟩

/-- The continuously-failing run: the first failure signal followed by `n`
timer firings, every initialization attempt failing. -/
def allFailRun (s : PeerState) (n : Nat) : RunAcc :=
  stepAllFail^[n] (allFailInit s)

/-- A live session about to suffer its first connectivity failure:
connection up, room and remote peer known, no attempt made yet. -/
def liveSession : PeerState :=
  { initialState with
    peer := some freshConn
    roomId := some "room1"
    remotePeerId := some "peerA" }

/-- `initializePeer(roomId)` (peer.js lines 168-178) with the outcome of
`initializeConnection` given by `ok`: `cleanup()`, set the room, reset the
counter and flag, then construct the connection. -/
def initializePeerFn (s : PeerState) (r : String) (ok : Bool) : PeerState :=
  let s1 := { cleanup s with
    roomId := some r
    reconnectAttempts := 0
    isReconnecting := false }
  if ok then { s1 with peer := some freshConn } else s1

/-- One observable transition of the service state: each constructor is a
method of `PeerService`, a phase of an `async` method delimited by a real
suspension point, or one of the timer / connection-event callbacks
installed by `setupPeerEvents`.  Oracle and payload arguments are
universally quantified, so the relation over-approximates the behaviors of
the JavaScript object. -/
inductive Step : PeerState → PeerState → Prop
  | cleanupStep (s : PeerState) : Step s (cleanup s)
  | initializePeerStep (s : PeerState) (r : String) (ok : Bool) :
      Step s (initializePeerFn s r ok)
  | addIceStep (s : PeerState) (c : Nat) (ok : Bool) :
      Step s (addIceCandidateFn s c ok).st
  | processPendingStep (s : PeerState) (ok : Nat → Bool) :
      Step s (processPendingCandidatesFn s ok).st
  | srdStep (s : PeerState) (a : Bool) (c : Nat → Bool) (i : Bool) :
      Step s (srdRun s a c i).st
  | srdEnterStep (s : PeerState) : Step s (srdMidState s)
  | hcfDoneStep (s : PeerState) (out : HcfOut)
      (h : hcfStart s = HcfStartResult.done out) : Step s out.st
  | hcfSuspendStep (s s1 : PeerState) (sp sr : Option String)
      (h : hcfStart s = HcfStartResult.awaitingInit s1 sp sr) : Step s s1
  | hcfResumeStep (s : PeerState) (sp sr : Option String) (i : Bool) :
      Step s (hcfFallbackResume s sp sr i).st
  | backoffStartStep (s : PeerState) : Step s (backoffFireStart s).1
  | backoffResumeStep (s : PeerState) (p i : Bool) :
      Step s (backoffFireResume s p i).st
  | failureHandlerStep (s : PeerState) (i : Bool) : Step s (runHcf s i).st
  | iceConnectedStep (s : PeerState) :
      Step s { s with reconnectAttempts := 0, isReconnecting := false }
  | iceCheckingStep (s : PeerState) : Step s { s with iceTimeoutPending := true }
  | iceTimerClearStep (s : PeerState) : Step s { s with iceTimeoutPending := false }
  | setRemotePeerStep (s : PeerState) (p : String) :
      Step s { s with remotePeerId := some p }
  | addTracksStep (s : PeerState) (ks : List TrackKind) :
      Step s { s with senders := ks }
  | trackStep (s : PeerState) (sid : Nat) (k : TrackKind) (t : Nat) :
      Step s (handleIncomingTrackFn s sid k t)
  | debounceFireStep (s : PeerState) (sid : Nat) :
      Step s (debounceFireMap s sid).1
  | createOfferOkStep (s : PeerState) (conn : PeerConn) (h : s.peer = some conn) :
      Step s { s with peer := some { conn with signalingState := SigState.haveLocalOffer } }
  | createAnswerOkStep (s : PeerState) (conn : PeerConn) (h : s.peer = some conn) :
      Step s { s with peer := some { conn with
        signalingState := SigState.stable, remoteDescSet := true } }

/-- States reachable from the constructor state through the modelled
transitions. -/
inductive Reach : PeerState → Prop
  | init : Reach initialState
  | step {s t : PeerState} : Reach s → Step s t → Reach t

/-- The attempt-counter invariant of claim C2. -/
def AttInv (s : PeerState) : Prop :=
  s.reconnectAttempts ≤ s.maxReconnectAttempts ∧ s.maxReconnectAttempts = 5

/-- The state visible while the immediate TURN fallback of
`handleConnectionFailure`, entered from `liveSession`, awaits
`initializeWithTurn`: `cleanup()` has already run. -/
def fallbackMidState : PeerState :=
  cleanup { liveSession with isReconnecting := true, reconnectAttempts := 1 }

/-- Whether the synchronous prefix of `handleConnectionFailure` entered
the immediate-fallback block (and hence started a reconnection attempt). -/
def startsFallback : HcfStartResult → Bool
  | HcfStartResult.awaitingInit _ _ _ => true
  | HcfStartResult.done _ => false

/-- A session that has already used the TURN fallback once (so a new
failure goes straight to the backoff section) and then scheduled a backoff
attempt: the timer is pending and the session identifiers are intact. -/
def backoffPendingState : PeerState :=
  (backoffSection { liveSession with lastUsedConfig := some IceConf.turn }).st

/-- A session whose connection sits in `have-remote-offer`, an illegal
state for `setRemoteDescription`. -/
def badSigState : PeerState :=
  { liveSession with peer := some { freshConn with signalingState := SigState.haveRemoteOffer } }

/-- A session with the stored ICE-checking timeout live and one stream
with an armed debounce timer, about to be cleaned up. -/
def c7State : PeerState :=
  { liveSession with
    iceTimeoutPending := true
    streamTracking := [(7, { freshGroup with hasVideo := true, pendingFire := some 500 })] }

/-- A (hypothetical) state whose attempt counter has reached the bound. -/
def exhaustedState : PeerState :=
  { initialState with reconnectAttempts := 5 }

/-! ## Claim theorems -/

/-- C1.  On a fresh live session in which every connection attempt fails,
the code does NOT stop after 5 attempts: because every attempt runs
`cleanup()`, which resets `reconnectAttempts` to 0, the counter cycles
between 0 and 1 forever.  After the initial failure signal and 12 timer
firings the code has made 13 initialization attempts (the claim allows 5),
every fired timer had delay 1000 ms (the claim says 1000/2000/4000/8000 ms
growing), the terminal reconnect-exhausted error has never been emitted
(only the per-attempt `turn` errors), the counter stands at 1, and yet
another backoff timer is pending — the process never terminates. -/
theorem c1_reconnect_unbounded_retry :
    (allFailRun liveSession 12).inits = 13
    ∧ (allFailRun liveSession 12).firedDelays = List.replicate 12 1000
    ∧ (allFailRun liveSession 12).evs = List.replicate 13 (Ev.errorEv ErrType.turn)
    ∧ Ev.errorEv ErrType.reconnect ∉ (allFailRun liveSession 12).evs
    ∧ (allFailRun liveSession 12).st.reconnectAttempts = 1
    ∧ (allFailRun liveSession 12).queue = [TimerK.backoff 1000] :=
  ⟨rfl, rfl, rfl, by decide, rfl, rfl⟩

/-- C9.  The mutual exclusion of reconnection sequences is broken: the
immediate TURN fallback of `handleConnectionFailure` runs `cleanup()`
before awaiting `initializeWithTurn`, and `cleanup()` resets
`isReconnecting` to `false`.  So in the state visible while the first
sequence is suspended at the TURN initialization, the flag is already
down, and a second invocation of `handleConnectionFailure` does not return
immediately — it starts a second fallback sequence of its own. -/
theorem c9_reconnect_mutex_broken :
    hcfStart liveSession
      = HcfStartResult.awaitingInit fallbackMidState (some "peerA") (some "room1")
    ∧ fallbackMidState.isReconnecting = false
    ∧ startsFallback (hcfStart fallbackMidState) = true :=
  ⟨rfl, rfl, rfl⟩

/-- C8.  Each attempt does tear the old connection down before creating a
new one (the initialization runs on the post-`cleanup` state, whose `peer`
is `none`), but a backoff-scheduled attempt does NOT preserve the session
identifiers: `cleanup()` nulls `roomId` and `remotePeerId` and, unlike the
immediate-fallback block, the backoff timer body never restores them — so
even when the attempt succeeds both identifiers are `none` afterwards and
the guarded `reconnectCall` emission is dead code. -/
theorem c8_backoff_loses_session_ids :
    hcfStart { liveSession with lastUsedConfig := some IceConf.turn }
      = HcfStartResult.done ⟨backoffPendingState, [], [TimerK.backoff 1000], 0⟩
    ∧ backoffPendingState.roomId = some "room1"
    ∧ backoffPendingState.remotePeerId = some "peerA"
    ∧ (backoffFireStart backoffPendingState).1 = cleanup backoffPendingState
    ∧ (cleanup backoffPendingState).peer = none
    ∧ (fireBackoff backoffPendingState true).st.roomId = none
    ∧ (fireBackoff backoffPendingState true).st.remotePeerId = none
    ∧ (fireBackoff backoffPendingState true).evs = [] :=
  ⟨rfl, rfl, rfl, rfl, rfl, rfl, rfl, rfl⟩

/-- C7 (counterexample).  `cleanup()` does not cancel the stored
ICE-checking timeout: from a state in which `this.iceTimeout` is live, the
timer is still live after `cleanup()` (the code clears only the
track-aggregation debounce timers). -/
theorem c7_cleanup_ice_timeout_cex :
    c7State.iceTimeoutPending = true
    ∧ (cleanup c7State).iceTimeoutPending = true :=
  ⟨rfl, rfl⟩

/-- C7 (amended).  `cleanup`, called from any state with a live
connection, cancels every track-aggregation debounce timer and empties the
tracking map, detaches all event handlers from the connection before
closing it (the action trace places `detachHandlers` before `closePeer`),
empties the pending-candidate queue and the sender map, drops the
connection, and resets `isReconnecting`, `isSettingRemoteDescription` and
`reconnectAttempts` to their initial values; it leaves the stored
ICE-checking timeout untouched (and the anonymous disconnected
grace-window timer is not referenced at all); calling it twice leaves the
same state as calling it once. -/
theorem c7_cleanup_amended (s : PeerState) (hpeer : s.peer.isSome = true) :
    (cleanup s).streamTracking = []
    ∧ (cleanup s).pendingCandidates = []
    ∧ (cleanup s).senders = []
    ∧ (cleanup s).peer = none
    ∧ (cleanup s).isReconnecting = false
    ∧ (cleanup s).isSettingRemoteDescription = false
    ∧ (cleanup s).reconnectAttempts = 0
    ∧ (cleanup s).iceTimeoutPending = s.iceTimeoutPending
    ∧ cleanup (cleanup s) = cleanup s
    ∧ cleanupTrace s = debounceClears s ++ [CleanupAct.detachHandlers, CleanupAct.closePeer] := by
  refine ⟨rfl, rfl, rfl, rfl, rfl, rfl, rfl, rfl, rfl, ?_⟩
  simp [cleanupTrace, hpeer]

/-- C7 (witness). -/
theorem c7_cleanup_amended_witness :
    c7State.peer.isSome = true
    ∧ ((cleanup c7State).streamTracking = []
      ∧ (cleanup c7State).pendingCandidates = []
      ∧ (cleanup c7State).senders = []
      ∧ (cleanup c7State).peer = none
      ∧ (cleanup c7State).isReconnecting = false
      ∧ (cleanup c7State).isSettingRemoteDescription = false
      ∧ (cleanup c7State).reconnectAttempts = 0
      ∧ (cleanup c7State).iceTimeoutPending = c7State.iceTimeoutPending
      ∧ cleanup (cleanup c7State) = cleanup c7State
      ∧ cleanupTrace c7State
          = debounceClears c7State ++ [CleanupAct.detachHandlers, CleanupAct.closePeer]) :=
  ⟨rfl, c7_cleanup_amended c7State rfl⟩

/-- C10.  `setRemoteDescription` called while no connection object exists
(`this.peer` is null) returns at once: no event is emitted, no timer is
registered, no underlying set is performed, no failure handler runs, and
the state — pending candidates, flags and counters included — is returned
unchanged. -/
theorem c10_srd_no_peer_noop (s : PeerState) (applyOk : Bool) (candOk : Nat → Bool)
    (initOk : Bool) (hp : s.peer = none) :
    srdRun s applyOk candOk initOk = ⟨s, [], [], 0⟩ := by
  unfold srdRun
  rw [hp]

/-- C10 (witness). -/
theorem c10_srd_no_peer_noop_witness :
    initialState.peer = none
    ∧ srdRun initialState true (fun _ => true) true = ⟨initialState, [], [], 0⟩ :=
  ⟨rfl, c10_srd_no_peer_noop initialState true (fun _ => true) true rfl⟩

/-- C4.  A `setRemoteDescription` call that arrives while a first one is
in flight (the `isSettingRemoteDescription` flag is up) is a no-op: it
returns without error, performs no underlying set and leaves the state
unchanged.  The first call — from a state with a connection, the flag down
and a legal signaling state — performs exactly one underlying set, and
its `finally` leaves the flag down whether the set succeeded or failed. -/
theorem c4_remote_description_mutex (s s2 : PeerState) (conn : PeerConn)
    (applyOk a2 initOk i2 : Bool) (candOk c2 : Nat → Bool)
    (hp : s.peer = some conn) (hf : s.isSettingRemoteDescription = false)
    (hsig : conn.signalingState = SigState.stable ∨ conn.signalingState = SigState.haveLocalOffer)
    (h2 : s2.isSettingRemoteDescription = true) :
    srdRun s2 a2 c2 i2 = ⟨s2, [], [], 0⟩
    ∧ (srdRun s applyOk candOk initOk).sets = 1
    ∧ (srdRun s applyOk candOk initOk).st.isSettingRemoteDescription = false := by
  refine ⟨?_, ?_, ?_⟩
  · cases hp2 : s2.peer with
    | none => simp [srdRun, hp2]
    | some c => simp [srdRun, hp2, h2]
  · cases applyOk <;> simp [srdRun, hp, hf, hsig]
  · cases applyOk <;> simp [srdRun, hp, hf, hsig]

/-- C4 (witness). -/
theorem c4_remote_description_mutex_witness :
    liveSession.peer = some freshConn
    ∧ liveSession.isSettingRemoteDescription = false
    ∧ (freshConn.signalingState = SigState.stable
        ∨ freshConn.signalingState = SigState.haveLocalOffer)
    ∧ (srdMidState liveSession).isSettingRemoteDescription = true
    ∧ (srdRun (srdMidState liveSession) true (fun _ => true) true
        = ⟨srdMidState liveSession, [], [], 0⟩
      ∧ (srdRun liveSession true (fun _ => true) true).sets = 1
      ∧ (srdRun liveSession true (fun _ => true) true).st.isSettingRemoteDescription = false) :=
  ⟨rfl, rfl, Or.inl rfl, rfl,
    c4_remote_description_mutex liveSession (srdMidState liveSession) freshConn
      true true true true (fun _ => true) (fun _ => true) rfl rfl (Or.inl rfl) rfl⟩

/-- C5.  With a connection present and no set in flight,
`setRemoteDescription` performs the underlying set only from the signaling
states `stable` and `have-local-offer`; from any other state it performs
no set, emits the `remote-description` error to the consumer, and then
runs `handleConnectionFailure` — the whole outcome is exactly the
composition with the failure handler, not a silent retry. -/
theorem c5_remote_description_state_guard (s : PeerState) (conn : PeerConn)
    (applyOk initOk : Bool) (candOk : Nat → Bool)
    (hp : s.peer = some conn) (hf : s.isSettingRemoteDescription = false)
    (hbad : ¬(conn.signalingState = SigState.stable
        ∨ conn.signalingState = SigState.haveLocalOffer)) :
    srdRun s applyOk candOk initOk =
      ⟨{ (runHcf (srdMidState s) initOk).st with isSettingRemoteDescription := false },
        Ev.errorEv ErrType.remoteDescription :: (runHcf (srdMidState s) initOk).evs,
        (runHcf (srdMidState s) initOk).timers, 0⟩ := by
  simp [srdRun, srdMidState, hp, hf, hbad]

/-- C5 (witness). -/
theorem c5_remote_description_state_guard_witness :
    badSigState.peer = some { freshConn with signalingState := SigState.haveRemoteOffer }
    ∧ badSigState.isSettingRemoteDescription = false
    ∧ ¬({ freshConn with signalingState := SigState.haveRemoteOffer }.signalingState
          = SigState.stable
        ∨ { freshConn with signalingState := SigState.haveRemoteOffer }.signalingState
          = SigState.haveLocalOffer)
    ∧ srdRun badSigState true (fun _ => true) false =
        ⟨{ (runHcf (srdMidState badSigState) false).st with isSettingRemoteDescription := false },
          Ev.errorEv ErrType.remoteDescription :: (runHcf (srdMidState badSigState) false).evs,
          (runHcf (srdMidState badSigState) false).timers, 0⟩ :=
  ⟨rfl, rfl, by decide,
    c5_remote_description_state_guard badSigState
      { freshConn with signalingState := SigState.haveRemoteOffer }
      true false (fun _ => true) rfl rfl (by decide)⟩

/-- Key lemma for C3: with a remote description in place, the candidate
loop hands every queued candidate to the connection, head first, and
leaves the queue empty. -/
theorem processLoop_drains : ∀ (l : List Nat) (s : PeerState) (conn : PeerConn) (ok : Nat → Bool),
    s.peer = some conn → conn.remoteDescSet = true → s.pendingCandidates = l →
    (processLoop l.length s ok).attempted = l
    ∧ (processLoop l.length s ok).st.pendingCandidates = []
  | [], s, conn, ok, _, _, hl => by
    refine ⟨rfl, ?_⟩
    simpa [processLoop] using hl
  | c :: rest, s, conn, ok, hp, hrd, hl => by
    obtain ⟨p, rid, ra, mra, ir, isrd, sd, pc, stk, rp, luc, itp⟩ := s
    cases hl
    cases hp
    cases hok : ok c with
    | true =>
      have ih := processLoop_drains rest
        ⟨some { conn with appliedCandidates := conn.appliedCandidates ++ [c] },
          rid, ra, mra, ir, isrd, sd, rest, stk, rp, luc, itp⟩
        { conn with appliedCandidates := conn.appliedCandidates ++ [c] } ok rfl hrd rfl
      simp only [hrd] at ih
      constructor
      · simp [processLoop, addIceCandidateFn, hrd, hok, ih.1]
      · simp [processLoop, addIceCandidateFn, hrd, hok, ih.2]
    | false =>
      have ih := processLoop_drains rest
        ⟨some conn, rid, ra, mra, ir, isrd, sd, rest, stk, rp, luc, itp⟩
        conn ok rfl hrd rfl
      constructor
      · simp [processLoop, addIceCandidateFn, hrd, hok, ih.1]
      · simp [processLoop, addIceCandidateFn, hrd, hok, ih.2]

/-- C3.  Once a remote description is in place (as after a successful
`setRemoteDescription`), `processPendingCandidates` hands the buffered
candidates to the connection in exactly the order they were enqueued,
exactly once each, and leaves the pending buffer empty; with an empty
buffer it is a no-op.  Moreover the successful `setRemoteDescription` path
itself (which calls it) ends with an empty buffer. -/
theorem c3_pending_candidates_flush (s : PeerState) (conn : PeerConn) (ok : Nat → Bool)
    (initOk : Bool)
    (hp : s.peer = some conn) (hrd : conn.remoteDescSet = true)
    (hf : s.isSettingRemoteDescription = false) :
    (processPendingCandidatesFn s ok).attempted = s.pendingCandidates
    ∧ (processPendingCandidatesFn s ok).st.pendingCandidates = []
    ∧ (s.pendingCandidates = [] → processPendingCandidatesFn s ok = ⟨s, [], []⟩)
    ∧ (conn.signalingState = SigState.stable ∨ conn.signalingState = SigState.haveLocalOffer →
        (srdRun s true ok initOk).st.pendingCandidates = []) := by
  have hmain := processLoop_drains s.pendingCandidates s conn ok hp hrd rfl
  refine ⟨?_, ?_, ?_, ?_⟩
  · by_cases he : s.pendingCandidates.isEmpty
    · rw [List.isEmpty_iff] at he
      simp [processPendingCandidatesFn, he]
    · simpa [processPendingCandidatesFn, he] using hmain.1
  · by_cases he : s.pendingCandidates.isEmpty
    · rw [List.isEmpty_iff] at he
      simp [processPendingCandidatesFn, he]
    · simpa [processPendingCandidatesFn, he] using hmain.2
  · intro he
    simp [processPendingCandidatesFn, he]
  · intro hsig
    have hmain2 := processLoop_drains s.pendingCandidates
      ({ s with
          isSettingRemoteDescription := true
          peer := some { conn with remoteDescSet := true, signalingState := SigState.stable } })
      { conn with remoteDescSet := true, signalingState := SigState.stable } ok rfl rfl rfl
    by_cases he : s.pendingCandidates.isEmpty
    · rw [List.isEmpty_iff] at he
      simp [srdRun, hp, hf, hsig, processPendingCandidatesFn, he]
    · simp [srdRun, hp, hf, hsig, processPendingCandidatesFn, he]
      simpa using hmain2.2

/-- C3 (witness). -/
theorem c3_pending_candidates_flush_witness :
    (let s3 : PeerState := { liveSession with
        peer := some { freshConn with remoteDescSet := true }
        pendingCandidates := [10, 11, 12] }
     s3.peer = some { freshConn with remoteDescSet := true }
     ∧ ({ freshConn with remoteDescSet := true } : PeerConn).remoteDescSet = true
     ∧ s3.isSettingRemoteDescription = false
     ∧ ((processPendingCandidatesFn s3 (fun _ => true)).attempted = s3.pendingCandidates
        ∧ (processPendingCandidatesFn s3 (fun _ => true)).st.pendingCandidates = []
        ∧ (s3.pendingCandidates = [] → processPendingCandidatesFn s3 (fun _ => true) = ⟨s3, [], []⟩)
        ∧ (({ freshConn with remoteDescSet := true } : PeerConn).signalingState = SigState.stable
            ∨ ({ freshConn with remoteDescSet := true } : PeerConn).signalingState
              = SigState.haveLocalOffer →
            (srdRun s3 true (fun _ => true) true).st.pendingCandidates = []))) :=
  ⟨rfl, rfl, rfl,
    c3_pending_candidates_flush _ { freshConn with remoteDescSet := true }
      (fun _ => true) true rfl rfl rfl⟩

/-- Helper for C6: once a group has emitted, no further emission ever
occurs for it (the `emitted` guard of the debounce callback). -/
theorem runTrackEvents_emitted : ∀ (l : List (Nat × TrackKind)) (g : TrackGroup),
    g.emitted = true → runTrackEvents g l = []
  | [], g, he => by
    show drainGroup g = []
    unfold drainGroup
    cases g.pendingFire with
    | none => rfl
    | some f => simp [he]
  | (t, k) :: rest, g, he => by
    have h1 : (fireIfDue g t).2 = [] ∧ (fireIfDue g t).1.emitted = true := by
      unfold fireIfDue debounceFireGroup
      cases hpf : g.pendingFire with
      | none => exact ⟨rfl, he⟩
      | some f =>
        by_cases hle : f ≤ t
        · simp [hle, he]
        · simp [hle, he]
    show (fireIfDue g t).2 ++ runTrackEvents (trackArrive (fireIfDue g t).1 k t) rest = []
    rw [h1.1]
    have h2 : (trackArrive (fireIfDue g t).1 k t).emitted = true := by
      simpa [trackArrive] using h1.2
    simpa using runTrackEvents_emitted rest _ h2

/-- Helper for C6: an unemitted group with an armed debounce timer emits
exactly once over any future arrival sequence. -/
theorem runTrackEvents_pending : ∀ (l : List (Nat × TrackKind)) (g : TrackGroup) (f : Nat),
    g.emitted = false → g.pendingFire = some f → (runTrackEvents g l).length = 1
  | [], g, f, he, hpf => by
    show (drainGroup g).length = 1
    simp [drainGroup, hpf, he]
  | (t, k) :: rest, g, f, he, hpf => by
    show ((fireIfDue g t).2 ++ runTrackEvents (trackArrive (fireIfDue g t).1 k t) rest).length = 1
    by_cases hle : f ≤ t
    · have h1 : fireIfDue g t = ({ g with pendingFire := none, emitted := true }, [f]) := by
        simp [fireIfDue, debounceFireGroup, hpf, hle, he]
      rw [h1]
      have h2 : (trackArrive { g with pendingFire := none, emitted := true } k t).emitted = true := rfl
      rw [runTrackEvents_emitted rest _ h2]
      simp
    · have h1 : fireIfDue g t = (g, []) := by
        simp [fireIfDue, hpf, hle]
      rw [h1]
      have h2 := runTrackEvents_pending rest (trackArrive g k t) (t + 1000)
        (by simpa [trackArrive] using he) rfl
      simpa using h2

/-- C6.  Per inbound stream identifier, the aggregator emits exactly one
`remoteStream` event: any nonempty arrival sequence produces exactly one
emission; a stream receiving a single track (no second kind ever arriving)
emits one debounce window (1000 ms) after that arrival; and a stream
receiving audio then video within the window emits exactly once, one
window after the later arrival, because each new track clears and re-arms
the timer. -/
theorem c6_track_debounce_single_emit (t t1 t2 : Nat) (k : TrackKind)
    (rest : List (Nat × TrackKind)) (hwin : t2 < t1 + 1000) :
    (runTrackEvents freshGroup ((t, k) :: rest)).length = 1
    ∧ runTrackEvents freshGroup [(t, k)] = [t + 1000]
    ∧ runTrackEvents freshGroup [(t1, TrackKind.audio), (t2, TrackKind.video)] = [t2 + 1000] := by
  refine ⟨?_, ?_, ?_⟩
  · show ((fireIfDue freshGroup t).2
        ++ runTrackEvents (trackArrive (fireIfDue freshGroup t).1 k t) rest).length = 1
    have h1 : fireIfDue freshGroup t = (freshGroup, []) := rfl
    rw [h1]
    simpa using runTrackEvents_pending rest (trackArrive freshGroup k t) (t + 1000) rfl rfl
  · simp [runTrackEvents, fireIfDue, trackArrive, drainGroup, freshGroup, debounceFireGroup]
  · have hnle : ¬(t1 + 1000 ≤ t2) := by omega
    simp [runTrackEvents, fireIfDue, trackArrive, drainGroup, freshGroup, debounceFireGroup, hnle]

/-- C6 (witness). -/
theorem c6_track_debounce_single_emit_witness :
    500 < 0 + 1000
    ∧ ((runTrackEvents freshGroup ((5, TrackKind.video) :: [])).length = 1
      ∧ runTrackEvents freshGroup [(5, TrackKind.video)] = [5 + 1000]
      ∧ runTrackEvents freshGroup [(0, TrackKind.audio), (500, TrackKind.video)] = [500 + 1000]) :=
  ⟨by decide, c6_track_debounce_single_emit 5 0 500 TrackKind.video [] (by decide)⟩

/-- `cleanup` resets the counter to 0 and never touches the bound. -/
theorem attInv_cleanup (s : PeerState) (hm : s.maxReconnectAttempts = 5) :
    AttInv (cleanup s) :=
  ⟨Nat.zero_le _, hm⟩

/-- The backoff section increments the counter only under its bound
check. -/
theorem attInv_backoffSection (s : PeerState) (h : AttInv s) :
    AttInv (backoffSection s).st := by
  unfold backoffSection
  split
  · exact h
  · next hlt =>
    constructor
    · show s.reconnectAttempts + 1 ≤ s.maxReconnectAttempts
      omega
    · exact h.2

/-- The fallback resumption never raises the counter beyond the bound. -/
theorem attInv_hcfFallbackResume (s : PeerState) (sp sr : Option String) (i : Bool)
    (h : AttInv s) : AttInv (hcfFallbackResume s sp sr i).st := by
  unfold hcfFallbackResume
  split
  · exact ⟨h.1, h.2⟩
  · exact attInv_backoffSection _ ⟨h.1, h.2⟩

/-- Outcomes of the synchronous prefix of `handleConnectionFailure`
preserve the counter invariant. -/
theorem attInv_hcfStartDone (s : PeerState) (out : HcfOut) (h : AttInv s)
    (he : hcfStart s = HcfStartResult.done out) : AttInv out.st := by
  unfold hcfStart at he
  split at he
  · cases he
    exact h
  · split at he
    · cases he
    · cases he
      exact attInv_backoffSection s h

/-- The suspended state of the immediate fallback satisfies the counter
invariant (it is a `cleanup` state). -/
theorem attInv_hcfStartAwait (s s1 : PeerState) (sp sr : Option String) (h : AttInv s)
    (he : hcfStart s = HcfStartResult.awaitingInit s1 sp sr) : AttInv s1 := by
  unfold hcfStart at he
  split at he
  · cases he
  · split at he
    · cases he
      exact attInv_cleanup _ h.2
    · cases he

/-- A complete `handleConnectionFailure` run preserves the counter
invariant. -/
theorem attInv_runHcf (s : PeerState) (i : Bool) (h : AttInv s) :
    AttInv (runHcf s i).st := by
  unfold runHcf
  cases hh : hcfStart s with
  | done out => exact attInv_hcfStartDone s out h hh
  | awaitingInit s1 sp sr =>
    exact attInv_hcfFallbackResume s1 sp sr i (attInv_hcfStartAwait s s1 sp sr h hh)

/-- `addIceCandidate` never touches the counter or the bound. -/
theorem addIce_attMax (s : PeerState) (c : Nat) (ok : Bool) :
    (addIceCandidateFn s c ok).st.reconnectAttempts = s.reconnectAttempts
    ∧ (addIceCandidateFn s c ok).st.maxReconnectAttempts = s.maxReconnectAttempts := by
  unfold addIceCandidateFn
  cases s.peer with
  | none => exact ⟨rfl, rfl⟩
  | some conn => by_cases h1 : conn.remoteDescSet <;> cases ok <;> simp [h1]

/-- The candidate loop never touches the counter or the bound. -/
theorem processLoop_attMax : ∀ (n : Nat) (s : PeerState) (ok : Nat → Bool),
    (processLoop n s ok).st.reconnectAttempts = s.reconnectAttempts
    ∧ (processLoop n s ok).st.maxReconnectAttempts = s.maxReconnectAttempts
  | 0, _, _ => ⟨rfl, rfl⟩
  | n + 1, s, ok => by
    unfold processLoop
    cases hp : s.pendingCandidates with
    | nil => exact ⟨rfl, rfl⟩
    | cons c rest =>
      have h1 := addIce_attMax { s with pendingCandidates := rest } c (ok c)
      have h2 := processLoop_attMax n
        (addIceCandidateFn { s with pendingCandidates := rest } c (ok c)).st ok
      exact ⟨by simp [h2.1, h1.1], by simp [h2.2, h1.2]⟩

/-- `processPendingCandidates` preserves the counter invariant. -/
theorem attInv_processPending (s : PeerState) (ok : Nat → Bool) (h : AttInv s) :
    AttInv (processPendingCandidatesFn s ok).st := by
  unfold processPendingCandidatesFn
  split
  · exact h
  · have h1 := processLoop_attMax s.pendingCandidates.length s ok
    exact ⟨by rw [h1.1, h1.2]; exact h.1, by rw [h1.2]; exact h.2⟩

/-- `setRemoteDescription` preserves the counter invariant. -/
theorem attInv_srdRun (s : PeerState) (a : Bool) (c : Nat → Bool) (i : Bool)
    (h : AttInv s) : AttInv (srdRun s a c i).st := by
  unfold srdRun
  cases hp : s.peer with
  | none => exact h
  | some conn =>
    dsimp only
    split
    · exact h
    · split
      · split
        · have h2 := attInv_processPending
            { s with
              isSettingRemoteDescription := true
              peer := some { conn with
                remoteDescSet := true, signalingState := SigState.stable } }
            c ⟨h.1, h.2⟩
          exact ⟨h2.1, h2.2⟩
        · have h2 := attInv_runHcf
            { s with isSettingRemoteDescription := true, peer := some conn } i ⟨h.1, h.2⟩
          exact ⟨h2.1, h2.2⟩
      · have h2 := attInv_runHcf
          { s with isSettingRemoteDescription := true, peer := some conn } i ⟨h.1, h.2⟩
        exact ⟨h2.1, h2.2⟩

/-- `handleIncomingTrack` never touches the counter or the bound. -/
theorem attInv_track (s : PeerState) (sid : Nat) (k : TrackKind) (t : Nat) (h : AttInv s) :
    AttInv (handleIncomingTrackFn s sid k t) := ⟨h.1, h.2⟩

/-- A debounce firing never touches the counter or the bound. -/
theorem attInv_debounceFire (s : PeerState) (sid : Nat) (h : AttInv s) :
    AttInv (debounceFireMap s sid).1 := by
  unfold debounceFireMap
  cases findGroup sid s.streamTracking with
  | none => exact h
  | some g => exact ⟨h.1, h.2⟩

/-- Every modelled transition preserves the counter invariant. -/
theorem attInv_step {s t : PeerState} (hst : Step s t) (h : AttInv s) : AttInv t := by
  cases hst with
  | cleanupStep => exact attInv_cleanup s h.2
  | initializePeerStep r ok =>
    unfold initializePeerFn
    split
    · exact ⟨Nat.zero_le _, h.2⟩
    · exact ⟨Nat.zero_le _, h.2⟩
  | addIceStep c ok =>
    have h1 := addIce_attMax s c ok
    exact ⟨by rw [h1.1, h1.2]; exact h.1, by rw [h1.2]; exact h.2⟩
  | processPendingStep ok => exact attInv_processPending s ok h
  | srdStep a c i => exact attInv_srdRun s a c i h
  | srdEnterStep => exact ⟨h.1, h.2⟩
  | hcfDoneStep out he => exact attInv_hcfStartDone s out h he
  | hcfSuspendStep =>
    rename_i sp sr he
    exact attInv_hcfStartAwait s t sp sr h he
  | hcfResumeStep sp sr i => exact attInv_hcfFallbackResume s sp sr i h
  | backoffStartStep => exact attInv_cleanup s h.2
  | backoffResumeStep p i =>
    unfold backoffFireResume
    split
    · exact ⟨h.1, h.2⟩
    · exact ⟨h.1, h.2⟩
  | failureHandlerStep i => exact attInv_runHcf s i h
  | iceConnectedStep => exact ⟨Nat.zero_le _, h.2⟩
  | iceCheckingStep => exact ⟨h.1, h.2⟩
  | iceTimerClearStep => exact ⟨h.1, h.2⟩
  | setRemotePeerStep p => exact ⟨h.1, h.2⟩
  | addTracksStep ks => exact ⟨h.1, h.2⟩
  | trackStep sid k t => exact attInv_track s sid k t h
  | debounceFireStep sid => exact attInv_debounceFire s sid h
  | createOfferOkStep conn hp => exact ⟨h.1, h.2⟩
  | createAnswerOkStep conn hp => exact ⟨h.1, h.2⟩

/-- Every reachable state satisfies the counter invariant. -/
theorem attInv_reach {s : PeerState} (h : Reach s) : AttInv s := by
  induction h with
  | init => exact ⟨Nat.zero_le _, rfl⟩
  | step _ hst ih => exact attInv_step hst ih

/-- C2.  In every reachable state the attempt counter never exceeds
`maxReconnectAttempts`; and in any state whose counter has reached the
bound (5) with no reconnection in flight, `handleConnectionFailure` emits
the terminal user-facing reconnect error and returns with the state
unchanged, performing no initialization and registering no timer. -/
theorem c2_attempts_bounded (s t : PeerState) (hs : Reach s)
    (ht5 : t.maxReconnectAttempts = 5)
    (hexh : t.maxReconnectAttempts ≤ t.reconnectAttempts)
    (hnr : t.isReconnecting = false) :
    s.reconnectAttempts ≤ s.maxReconnectAttempts
    ∧ hcfStart t = HcfStartResult.done ⟨t, [Ev.errorEv ErrType.reconnect], [], 0⟩ := by
  refine ⟨(attInv_reach hs).1, ?_⟩
  have hne : ¬(t.reconnectAttempts = 0 ∧ t.lastUsedConfig ≠ some IceConf.turn) := by
    rintro ⟨h0, -⟩
    omega
  unfold hcfStart
  rw [if_neg (by simp [hnr]), if_neg hne]
  unfold backoffSection
  rw [if_pos hexh]

/-- C2 (witness). -/
theorem c2_attempts_bounded_witness :
    exhaustedState.maxReconnectAttempts = 5
    ∧ exhaustedState.maxReconnectAttempts ≤ exhaustedState.reconnectAttempts
    ∧ exhaustedState.isReconnecting = false
    ∧ (initialState.reconnectAttempts ≤ initialState.maxReconnectAttempts
      ∧ hcfStart exhaustedState
          = HcfStartResult.done ⟨exhaustedState, [Ev.errorEv ErrType.reconnect], [], 0⟩) :=
  ⟨rfl, by decide, rfl,
    c2_attempts_bounded initialState exhaustedState Reach.init rfl (by decide) rfl⟩

end SkiiChat
